import Mathlib

/-!
Shallow embedding of the libp2p ping protocol implementation
(p2p/protocol/ping/ping.go): the single-round echo exchange, the
initiator session loop, the responder handler loop, and the
configuration options.  Collaborator behaviour (stream, resource
scope, random source, clock, context) is supplied through explicit
environment records; each definition follows the Go control flow of
the corresponding source function.
-/

/-- Go error values as this package sees them: either an error produced
by a collaborator or the standard library (transport errors,
reservation failures, short reads, and so on), or the dedicated
mismatch error the round creates with errors.New. -/
inductive GoError where
  | external (msg : String)
  | pingIncorrect
deriving DecidableEq

/-- PingSize: the fixed 32-byte payload size. -/
def PingSize : Nat := 32

/-- defaultTimeout: 60 seconds, expressed in nanoseconds as Go durations are. -/
def defaultTimeout : Int := 60 * 1000000000

/-- The protocol identifier constant. -/
def ID : String := "/ipfs/ping/1.0.0"

/-- The service name used to tag stream scopes. -/
def ServiceName : String := "libp2p.ping"

/-- io.ReadFull semantics over a modelled byte source: reading n bytes
succeeds with exactly the first n available bytes when at least n are
available, and fails with a short-read error otherwise. -/
def readFull (n : Nat) (avail : List Nat) : Sum GoError (List Nat) :=
  if n ≤ avail.length then Sum.inr (avail.take n)
  else Sum.inl (GoError.external "unexpected EOF")

/-- Operations performed on a stream resource scope, plus forced stream
resets, recorded in program order. -/
inductive ScopeOp where
  | reserveOk (n : Nat)
  | reserveFail (n : Nat)
  | release (n : Nat)
  | reset
deriving DecidableEq

/-- Total bytes successfully reserved in a scope-operation trace. -/
def reservedOkBytes : List ScopeOp → Nat
  | [] => 0
  | ScopeOp.reserveOk n :: rest => n + reservedOkBytes rest
  | _ :: rest => reservedOkBytes rest

/-- Total bytes released in a scope-operation trace. -/
def releasedBytes : List ScopeOp → Nat
  | [] => 0
  | ScopeOp.release n :: rest => n + releasedBytes rest
  | _ :: rest => releasedBytes rest

/-- Number of successful reservations in a trace. -/
def reserveOkCount : List ScopeOp → Nat
  | [] => 0
  | ScopeOp.reserveOk _ :: rest => 1 + reserveOkCount rest
  | _ :: rest => reserveOkCount rest

/-- Number of releases in a trace. -/
def releaseCount : List ScopeOp → Nat
  | [] => 0
  | ScopeOp.release _ :: rest => 1 + releaseCount rest
  | _ :: rest => releaseCount rest

/-- Environment for one echo round: outcome of the memory reservation,
bytes the session random generator will deliver, outcome of the stream
write, bytes the stream will deliver for the echo read, and the two
monotonic-clock samples taken just before the write and just after the
verified read. -/
structure RoundEnv where
  reserveErr : Option String
  randAvail : List Nat
  writeErr : Option String
  echoAvail : List Nat
  tBefore : Int
  tAfter : Int
deriving DecidableEq

/-- Outcome of one echo round: the returned duration and error, plus the
trace of scope operations the round performed. -/
structure RoundOut where
  RTT : Int
  Error : Option GoError
  ops : List ScopeOp
deriving DecidableEq

/-- The single-round echo exchange, following func ping(s, randReader):
reserve 2*PingSize (on failure: log, reset the stream, return the
error); fill the payload buffer from the random source; record the
start time; write; read back exactly PingSize bytes; compare
byte-for-byte, returning the dedicated mismatch error on inequality;
on success return the elapsed time.  The deferred ReleaseMemory of
2*PingSize runs on every exit path after a successful reservation. -/
def ping (env : RoundEnv) : RoundOut :=
  match env.reserveErr with
  | some e => ⟨0, some (GoError.external e), [ScopeOp.reserveFail (2 * PingSize), ScopeOp.reset]⟩
  | none =>
    match readFull PingSize env.randAvail with
    | Sum.inl e => ⟨0, some e, [ScopeOp.reserveOk (2 * PingSize), ScopeOp.release (2 * PingSize)]⟩
    | Sum.inr buf =>
      match env.writeErr with
      | some e => ⟨0, some (GoError.external e),
          [ScopeOp.reserveOk (2 * PingSize), ScopeOp.release (2 * PingSize)]⟩
      | none =>
        match readFull PingSize env.echoAvail with
        | Sum.inl e => ⟨0, some e,
            [ScopeOp.reserveOk (2 * PingSize), ScopeOp.release (2 * PingSize)]⟩
        | Sum.inr rbuf =>
          if buf = rbuf then
            ⟨env.tAfter - env.tBefore, none,
              [ScopeOp.reserveOk (2 * PingSize), ScopeOp.release (2 * PingSize)]⟩
          else
            ⟨0, some GoError.pingIncorrect,
              [ScopeOp.reserveOk (2 * PingSize), ScopeOp.release (2 * PingSize)]⟩

/-- Result is a result of a ping attempt, either an RTT or an error
(the RTT field keeps its zero value when Error is set). -/
structure Result where
  RTT : Int
  Error : Option GoError
deriving DecidableEq

/-- The Result a round outcome is published as. -/
def mkRes (r : RoundOut) : Result := ⟨r.RTT, r.Error⟩

/-- The latency RecordLatency receives for a round, when any: the RTT
for a successful round, nothing for a failed one. -/
def succLat (env : RoundEnv) : Option Int :=
  match (ping env).Error with
  | none => some (ping env).RTT
  | some _ => none

/-- Cancellation model: the context is observed cancelled from a fixed
global checkpoint onward (none means never cancelled).  Each loop
iteration has three checkpoints: 0 the loop condition, 1 the check
right after the round returns, 2 the publish select; the next
iteration shifts the cancellation point down by 3. -/
def chkCancelled (cp : Option Nat) (k : Nat) : Bool :=
  match cp with
  | none => false
  | some c => c ≤ k

/-- Shift the cancellation point past one full iteration. -/
def cpStep (cp : Option Nat) : Option Nat := cp.map (fun c => c - 3)

/-- Observable outcome of the initiator probing loop: the Results sent
on the out channel in order, the RTTs handed to RecordLatency in
order, how many rounds were started, and whether the goroutine
returned (closing the channel) within the supplied round budget. -/
structure LoopOut where
  published : List Result
  latencies : List Int
  roundsRun : Nat
  exited : Bool
deriving DecidableEq

/-- The initiator probing-loop goroutine inside func Ping: while the
context is not cancelled, run one round; if cancellation is observed
right after the round, discard its outcome and return; otherwise
record the RTT when the round succeeded, then publish the Result
unless cancellation wins the select.  The iteration environments
supply each round its collaborator behaviour; if they run out before
an exit, the loop is still running (channel not yet closed). -/
def pingLoop (cp : Option Nat) : List RoundEnv → LoopOut
  | [] => ⟨[], [], 0, chkCancelled cp 0⟩
  | env :: rest =>
    if chkCancelled cp 0 then ⟨[], [], 0, true⟩
    else
      let r := ping env
      if chkCancelled cp 1 then ⟨[], [], 1, true⟩
      else
        let lats := match r.Error with
          | none => [r.RTT]
          | some _ => []
        if chkCancelled cp 2 then ⟨[], lats, 1, true⟩
        else
          let sub := pingLoop (cpStep cp) rest
          ⟨mkRes r :: sub.published, lats ++ sub.latencies, 1 + sub.roundsRun, sub.exited⟩

/-- Environment for the setup phase of func Ping: outcomes of
h.NewStream, of tagging the scope with the service name, and of
reading the 8-byte cryptographic seed. -/
structure SetupEnv where
  newStreamErr : Option String
  setServiceErr : Option String
  seedErr : Option String
deriving DecidableEq

/-- Observable outcome of one call to func Ping: the Results delivered
on the returned channel in order, the recorded latencies, the number
of rounds started, whether the stream was reset during setup before
the function returned, and whether the channel was closed. -/
structure PingOut where
  published : List Result
  latencies : List Int
  roundsRun : Nat
  resetInSetup : Bool
  closed : Bool
deriving DecidableEq

/-- func pingError: a buffered channel holding a single Result with the
error set (RTT at its zero value), already closed. -/
def pingError (e : GoError) : List Result × Bool := ([⟨0, some e⟩], true)

/-- func Ping, following the source order: open the stream (failure:
return pingError without a reset, no stream exists); tag the scope
(failure: reset then pingError); read the seed (failure: reset then
pingError); otherwise start the probing loop. -/
def Ping (senv : SetupEnv) (cp : Option Nat) (iters : List RoundEnv) : PingOut :=
  match senv.newStreamErr with
  | some e =>
    let pe := pingError (GoError.external e)
    ⟨pe.1, [], 0, false, pe.2⟩
  | none =>
    match senv.setServiceErr with
    | some e =>
      let pe := pingError (GoError.external e)
      ⟨pe.1, [], 0, true, pe.2⟩
    | none =>
      match senv.seedErr with
      | some e =>
        let pe := pingError (GoError.external e)
        ⟨pe.1, [], 0, true, pe.2⟩
      | none =>
        let lo := pingLoop cp iters
        ⟨lo.published, lo.latencies, lo.roundsRun, false, lo.exited⟩

/-- Environment for one responder-loop iteration: the bytes the inbound
stream will deliver for the blocking read, and the outcome of writing
them back. -/
structure RespIter where
  avail : List Nat
  writeErr : Option String
deriving DecidableEq

/-- Events of the responder loop, in program order. -/
inductive RespEv where
  | readOk (data : List Nat)
  | readFail (e : GoError)
  | wrote (data : List Nat)
  | writeFail (e : GoError)
  | timerReset (d : Int)
  | errRecorded (e : GoError)
deriving DecidableEq

/-- The for-loop of func PingHandler: read exactly PingSize bytes into
the reused buffer (on error: send it on errCh and return); write the
same buffer back (on error: send it on errCh and return); reset the
idle timer to the configured timeout and continue.  The iteration
environments supply the stream behaviour; if they run out before an
error, the loop is still running (blocked in the next read). -/
def respLoop (tmo : Int) : List RespIter → List RespEv × Bool
  | [] => ([], false)
  | it :: rest =>
    match readFull PingSize it.avail with
    | Sum.inl e => ([RespEv.readFail e, RespEv.errRecorded e], true)
    | Sum.inr data =>
      match it.writeErr with
      | some e => ([RespEv.readOk data, RespEv.writeFail (GoError.external e),
          RespEv.errRecorded (GoError.external e)], true)
      | none =>
        let sub := respLoop tmo rest
        (RespEv.readOk data :: RespEv.wrote data :: RespEv.timerReset tmo :: sub.1, sub.2)

/-- Environment for one invocation of func PingHandler. -/
structure HandlerEnv where
  setServiceErr : Option String
  reserveErr : Option String
  iters : List RespIter
deriving DecidableEq

/-- Observable outcome of func PingHandler: loop events, scope
operations, and whether the handler returned. -/
structure HandlerOut where
  events : List RespEv
  ops : List ScopeOp
  exited : Bool
deriving DecidableEq

/-- func PingHandler: tag the scope with the service name (failure:
reset, return); reserve PingSize bytes (failure: reset, return); run
the echo loop.  The deferred ReleaseMemory of PingSize runs when the
handler returns; the watchdog goroutine then resets the stream on
receiving the loop error. -/
def PingHandler (tmo : Int) (env : HandlerEnv) : HandlerOut :=
  match env.setServiceErr with
  | some _ => ⟨[], [ScopeOp.reset], true⟩
  | none =>
    match env.reserveErr with
    | some _ => ⟨[], [ScopeOp.reserveFail PingSize, ScopeOp.reset], true⟩
    | none =>
      let lo := respLoop tmo env.iters
      if lo.2 then
        ⟨lo.1, [ScopeOp.reserveOk PingSize, ScopeOp.release PingSize, ScopeOp.reset], true⟩
      else
        ⟨lo.1, [ScopeOp.reserveOk PingSize], false⟩

/-- The PingService record: the configured timeout (the Host reference
is kept abstract; registration is modelled on HostModel). -/
structure PingService where
  timeout : Int
deriving DecidableEq

/-- A functional option, as in the source: it may rewrite the service
state and may return an error. -/
def PingOption : Type := PingService → PingService × Option GoError

/-- The host, reduced to its registered stream handlers: the protocol
identifiers for which SetStreamHandler was called, most recent first. -/
structure HostModel where
  handlers : List String
deriving DecidableEq

/-- h.SetStreamHandler(pid, fn). -/
def SetStreamHandler (h : HostModel) (pid : String) : HostModel :=
  ⟨pid :: h.handlers⟩

/-- func Timeout: a configured timeout of exactly zero is replaced by
defaultTimeout; any other value is stored as given; never errors. -/
def Timeout (d : Int) : PingOption := fun ps =>
  ({ ps with timeout := if d = 0 then defaultTimeout else d }, none)

/-- func NewPingService: build the service with the default timeout and
register PingHandler for the protocol identifier. -/
def NewPingService (h : HostModel) : PingService × HostModel :=
  (⟨defaultTimeout⟩, SetStreamHandler h ID)

/-- Apply a list of options in order to the (pointer-shared) service,
stopping at the first error; mutations made before (and by) the
failing option stay applied. -/
def applyOptions : PingService → List PingOption → PingService × Option GoError
  | ps, [] => (ps, none)
  | ps, o :: rest =>
    match o ps with
    | (ps2, some e) => (ps2, some e)
    | (ps2, none) => applyOptions ps2 rest

/-- func NewPingServiceWithOptions: first NewPingService (which already
registers the handler), then apply the options; on an option error
return (nil, err).  The middle component is the final state of the
shared service record the registered handler closes over; the last is
the final host state. -/
def NewPingServiceWithOptions (h : HostModel) (opts : List PingOption) :
    (Option PingService × Option GoError) × PingService × HostModel :=
  let sh := NewPingService h
  let ao := applyOptions sh.1 opts
  match ao.2 with
  | some e => ((none, some e), ao.1, sh.2)
  | none => ((some ao.1, none), ao.1, sh.2)

/-- Shape of a correct responder event trace, stated from the claimed
behaviour: every read obtains exactly PingSize bytes; a read failure is
followed only by recording the error (the loop terminates without
writing); a write failure ends the trace after recording; a successful
round writes back exactly the bytes just read and then resets the idle
timer to the configured timeout, and timer resets happen only there. -/
def respShape (tmo : Int) : List RespEv → Bool
  | [] => true
  | RespEv.readFail e :: RespEv.errRecorded e2 :: [] => decide (e = e2)
  | RespEv.readOk d :: RespEv.writeFail e :: RespEv.errRecorded e2 :: [] =>
      decide (d.length = PingSize) && decide (e = e2)
  | RespEv.readOk d :: RespEv.wrote d2 :: RespEv.timerReset t :: rest =>
      decide (d = d2) && decide (d.length = PingSize) && decide (t = tmo) && respShape tmo rest
  | _ => false

/-- A setup environment in which every setup step succeeds. -/
def okSetup : SetupEnv := ⟨none, none, none⟩

/-- A round environment whose round fails with a stream write error. -/
def badRound : RoundEnv :=
  ⟨none, List.replicate 32 0, some "stream reset", [], 0, 0⟩

/-- A round environment whose round succeeds with RTT 5. -/
def okRound : RoundEnv :=
  ⟨none, List.replicate 32 1, none, List.replicate 32 1, 0, 5⟩

/-- An option that changes nothing and returns an error, as a caller of
NewPingServiceWithOptions may supply. -/
def failOpt : PingOption := fun ps => (ps, some (GoError.external "boom"))

theorem readFull_inr_length {n : Nat} {avail data : List Nat}
    (h : readFull n avail = Sum.inr data) : data.length = n := by
  unfold readFull at h
  split at h
  · cases h
    simp [List.length_take]
    omega
  · simp at h

theorem ping_rtt_form (env : RoundEnv) :
    ((ping env).Error = none → (ping env).RTT = env.tAfter - env.tBefore) ∧
    (∀ e, (ping env).Error = some e → (ping env).RTT = 0) := by
  rcases env with ⟨re, ra, we, ea, tb, ta⟩
  cases re with
  | some e => simp [ping]
  | none =>
    cases h1 : readFull PingSize ra with
    | inl e => simp [ping, h1]
    | inr buf =>
      cases we with
      | some e => simp [ping, h1]
      | none =>
        cases h2 : readFull PingSize ea with
        | inl e => simp [ping, h1, h2]
        | inr rbuf =>
          by_cases hb : buf = rbuf <;> simp [ping, h1, h2, hb]

theorem pingLoop_none_char (iters : List RoundEnv) :
    pingLoop none iters =
      ⟨iters.map (fun e => mkRes (ping e)), iters.filterMap succLat, iters.length, false⟩ := by
  induction iters with
  | nil => simp [pingLoop, chkCancelled]
  | cons env rest ih =>
    simp [pingLoop, chkCancelled, cpStep, ih, List.filterMap_cons]
    cases h : (ping env).Error with
    | none => simp [succLat, mkRes, h]; omega
    | some e => simp [succLat, mkRes, h]; omega

theorem pingLoop_some_published (c : Nat) (iters : List RoundEnv) :
    (pingLoop (some c) iters).published
      = (iters.take (c / 3)).map (fun e => mkRes (ping e)) := by
  induction iters generalizing c with
  | nil => simp [pingLoop]
  | cons env rest ih =>
    rcases Nat.lt_or_ge c 3 with hc | hc
    · interval_cases c <;> simp [pingLoop, chkCancelled]
    · have h0 : ¬ (c ≤ 0) := by omega
      have h1 : ¬ (c ≤ 1) := by omega
      have h2 : ¬ (c ≤ 2) := by omega
      have hd : c / 3 = (c - 3) / 3 + 1 := by omega
      simp [pingLoop, chkCancelled, cpStep, h0, h1, h2, ih, hd, List.take_succ_cons]

theorem pingLoop_postround_cancel (j : Nat) (iters : List RoundEnv) :
    (pingLoop (some (3 * j + 1)) iters).latencies = (iters.take j).filterMap succLat ∧
    (pingLoop (some (3 * j + 1)) iters).roundsRun = min (j + 1) iters.length ∧
    (j < iters.length → (pingLoop (some (3 * j + 1)) iters).exited = true) := by
  induction iters generalizing j with
  | nil => simp [pingLoop, chkCancelled]
  | cons env rest ih =>
    cases j with
    | zero => simp [pingLoop, chkCancelled]
    | succ j' =>
      have h0 : ¬ (3 * (j' + 1) + 1 ≤ 0) := by omega
      have h1 : ¬ (3 * (j' + 1) + 1 ≤ 1) := by omega
      have h2 : ¬ (3 * (j' + 1) + 1 ≤ 2) := by omega
      have hstep : 3 * (j' + 1) + 1 - 3 = 3 * j' + 1 := by omega
      obtain ⟨ihl, ihr, ihe⟩ := ih j'
      refine ⟨?_, ?_, ?_⟩
      · simp [pingLoop, chkCancelled, cpStep, h0, h1, h2, hstep, ihl,
          List.take_succ_cons, List.filterMap_cons]
        cases h : (ping env).Error <;> simp [succLat, h]
      · simp [pingLoop, chkCancelled, cpStep, h0, h1, h2, hstep, ihr]
        omega
      · intro hlt
        simp [pingLoop, chkCancelled, cpStep, h0, h1, h2, hstep]
        exact ihe (by simpa using hlt)

theorem pingLoop_precheck_cancel (j : Nat) (iters : List RoundEnv) :
    (pingLoop (some (3 * j)) iters).roundsRun = min j iters.length := by
  induction iters generalizing j with
  | nil => simp [pingLoop]
  | cons env rest ih =>
    cases j with
    | zero => simp [pingLoop, chkCancelled]
    | succ j' =>
      have h0 : ¬ (3 * (j' + 1) ≤ 0) := by omega
      have h1 : ¬ (3 * (j' + 1) ≤ 1) := by omega
      have h2 : ¬ (3 * (j' + 1) ≤ 2) := by omega
      have hstep : 3 * (j' + 1) - 3 = 3 * j' := by omega
      simp [pingLoop, chkCancelled, cpStep, h0, h1, h2, hstep, ih]
      omega

theorem Ping_okSetup_eq (cp : Option Nat) (iters : List RoundEnv) :
    Ping okSetup cp iters = ⟨(pingLoop cp iters).published, (pingLoop cp iters).latencies,
      (pingLoop cp iters).roundsRun, false, (pingLoop cp iters).exited⟩ := by
  simp [Ping, okSetup]

/-- C2: when the reservation, the random fill, the write and the full
payload-size read all succeed, the round returns a nil error iff the
bytes read back equal the payload written byte-for-byte; on a mismatch
it returns the dedicated mismatch error, distinct from every
collaborator error, with no meaningful RTT. -/
theorem ping_echo_integrity (env : RoundEnv)
    (h1 : env.reserveErr = none) (h2 : PingSize ≤ env.randAvail.length)
    (h3 : env.writeErr = none) (h4 : PingSize ≤ env.echoAvail.length) :
    ((ping env).Error = none ↔
      env.randAvail.take PingSize = env.echoAvail.take PingSize) ∧
    (env.randAvail.take PingSize ≠ env.echoAvail.take PingSize →
      (ping env).Error = some GoError.pingIncorrect ∧ (ping env).RTT = 0) ∧
    (∀ s, GoError.pingIncorrect ≠ GoError.external s) := by
  rcases env with ⟨re, ra, we, ea, tb, ta⟩
  simp only at h1 h2 h3 h4
  subst h1
  subst h3
  by_cases hb : ra.take PingSize = ea.take PingSize <;>
    simp [ping, readFull, h2, h4, hb]

/-- C2 witness: a clean echo is accepted and a corrupted last byte is
rejected with the mismatch error. -/
theorem ping_echo_integrity_witness :
    (ping ⟨none, List.replicate 32 7, none, List.replicate 32 7, 10, 25⟩).Error = none ∧
    (ping ⟨none, List.replicate 32 7, none,
        List.replicate 31 7 ++ [9], 10, 25⟩).Error = some GoError.pingIncorrect :=
  ⟨((ping_echo_integrity ⟨none, List.replicate 32 7, none, List.replicate 32 7, 10, 25⟩
      rfl (by decide) rfl (by decide)).1).mpr (by decide),
   ((ping_echo_integrity ⟨none, List.replicate 32 7, none, List.replicate 31 7 ++ [9], 10, 25⟩
      rfl (by decide) rfl (by decide)).2.1 (by decide)).1⟩

/-- C3: on every exit path of the echo round and of the responder
handler, the bytes released to the scope equal the bytes successfully
reserved, and the number of releases equals the number of successful
reservations (no leak, no double release; a failed reservation is
never followed by a release). -/
theorem scope_balance :
    (∀ env : RoundEnv,
      releasedBytes (ping env).ops = reservedOkBytes (ping env).ops ∧
      releaseCount (ping env).ops = reserveOkCount (ping env).ops) ∧
    (∀ tmo : Int, ∀ henv : HandlerEnv, (PingHandler tmo henv).exited = true →
      releasedBytes (PingHandler tmo henv).ops = reservedOkBytes (PingHandler tmo henv).ops ∧
      releaseCount (PingHandler tmo henv).ops = reserveOkCount (PingHandler tmo henv).ops) := by
  constructor
  · intro env
    rcases env with ⟨re, ra, we, ea, tb, ta⟩
    cases re with
    | some e => simp [ping, reservedOkBytes, releasedBytes, reserveOkCount, releaseCount]
    | none =>
      cases h1 : readFull PingSize ra with
      | inl e => simp [ping, h1, reservedOkBytes, releasedBytes, reserveOkCount, releaseCount]
      | inr buf =>
        cases we with
        | some e => simp [ping, h1, reservedOkBytes, releasedBytes, reserveOkCount, releaseCount]
        | none =>
          cases h2 : readFull PingSize ea with
          | inl e =>
            simp [ping, h1, h2, reservedOkBytes, releasedBytes, reserveOkCount, releaseCount]
          | inr rbuf =>
            by_cases hb : buf = rbuf <;>
              simp [ping, h1, h2, hb, reservedOkBytes, releasedBytes, reserveOkCount, releaseCount]
  · intro tmo henv hex
    rcases henv with ⟨se, re, iters⟩
    cases se with
    | some e => simp [PingHandler, reservedOkBytes, releasedBytes, reserveOkCount, releaseCount]
    | none =>
      cases re with
      | some e => simp [PingHandler, reservedOkBytes, releasedBytes, reserveOkCount, releaseCount]
      | none =>
        cases hlo : (respLoop tmo iters).2 with
        | true =>
          simp [PingHandler, hlo, reservedOkBytes, releasedBytes, reserveOkCount, releaseCount]
        | false =>
          exfalso
          simp [PingHandler, hlo] at hex

/-- C3 witness: the balance at a concrete failing round and a concrete
handler run that exits on a read error. -/
theorem scope_balance_witness :
    (releasedBytes (ping badRound).ops = reservedOkBytes (ping badRound).ops) ∧
    (releasedBytes (PingHandler 60 ⟨none, none, [⟨[], none⟩]⟩).ops
      = reservedOkBytes (PingHandler 60 ⟨none, none, [⟨[], none⟩]⟩).ops) :=
  ⟨(scope_balance.1 badRound).1,
   (scope_balance.2 60 ⟨none, none, [⟨[], none⟩]⟩ (by decide)).1⟩

/-- C4: every responder-loop trace is well shaped: reads obtain exactly
PingSize bytes, a read failure records the error and terminates the
loop without any write, a write failure terminates after recording,
and each fully successful round writes back exactly the bytes read and
then resets the idle timer to the configured timeout (and the timer is
reset only there); moreover a short read is a read error. -/
theorem responder_loop_behaviour (tmo : Int) (iters : List RespIter) :
    respShape tmo (respLoop tmo iters).1 = true ∧
    (∀ it : RespIter, ∀ rest : List RespIter, it.avail.length < PingSize →
      respLoop tmo (it :: rest) =
        ([RespEv.readFail (GoError.external "unexpected EOF"),
          RespEv.errRecorded (GoError.external "unexpected EOF")], true)) := by
  constructor
  · induction iters with
    | nil => simp [respLoop, respShape]
    | cons it rest ih =>
      cases h1 : readFull PingSize it.avail with
      | inl e => simp [respLoop, h1, respShape]
      | inr data =>
        have hlen := readFull_inr_length h1
        cases hw : it.writeErr with
        | some e => simp [respLoop, h1, hw, respShape, hlen]
        | none => simp [respLoop, h1, hw, respShape, hlen, ih]
  · intro it rest hshort
    have hnot : ¬ (PingSize ≤ it.avail.length) := by omega
    simp [respLoop, readFull, hnot]

/-- C4 witness: a three-byte short read at a concrete iteration yields
the recorded short-read error and terminates the loop. -/
theorem responder_loop_behaviour_witness :
    respLoop 60 [⟨[1, 2, 3], none⟩] =
      ([RespEv.readFail (GoError.external "unexpected EOF"),
        RespEv.errRecorded (GoError.external "unexpected EOF")], true) :=
  (responder_loop_behaviour 60 []).2 ⟨[1, 2, 3], none⟩ [] (by decide)

/-- C5: each setup failure of func Ping (stream open, scope tagging,
seed acquisition) yields exactly one Result carrying that error with
the RTT at its zero value, and the channel is closed; the stream is
reset before returning exactly for the tagging and seed failures. -/
theorem ping_setup_failure (senv : SetupEnv) (cp : Option Nat) (iters : List RoundEnv)
    (e : String) :
    (senv.newStreamErr = some e →
      Ping senv cp iters = ⟨[⟨0, some (GoError.external e)⟩], [], 0, false, true⟩) ∧
    (senv.newStreamErr = none → senv.setServiceErr = some e →
      Ping senv cp iters = ⟨[⟨0, some (GoError.external e)⟩], [], 0, true, true⟩) ∧
    (senv.newStreamErr = none → senv.setServiceErr = none → senv.seedErr = some e →
      Ping senv cp iters = ⟨[⟨0, some (GoError.external e)⟩], [], 0, true, true⟩) := by
  rcases senv with ⟨ns, ss, sd⟩
  refine ⟨?_, ?_, ?_⟩ <;> intros <;> subst_vars <;> simp [Ping, pingError]

/-- C5 witness: a concrete scope-tagging failure yields the single
error Result, a closed channel and a reset stream. -/
theorem ping_setup_failure_witness :
    Ping ⟨none, some "denied", none⟩ none [] =
      ⟨[⟨0, some (GoError.external "denied")⟩], [], 0, true, true⟩ :=
  (ping_setup_failure ⟨none, some "denied", none⟩ none [] "denied").2.1 rfl rfl

/-- C8: the Timeout option replaces an exactly-zero duration by the
60-second default at configuration time, stores any non-zero duration
as given, never errors, and a service built by NewPingService carries
the 60-second default. -/
theorem timeout_normalisation (ps : PingService) (h : HostModel) (d : Int) (hd : d ≠ 0) :
    (Timeout 0 ps).1.timeout = defaultTimeout ∧ (Timeout 0 ps).2 = none ∧
    (Timeout d ps).1.timeout = d ∧ (Timeout d ps).2 = none ∧
    (NewPingService h).1.timeout = defaultTimeout := by
  simp [Timeout, NewPingService, hd]

/-- C8 witness: concrete zero and non-zero durations. -/
theorem timeout_normalisation_witness :
    (Timeout 0 ⟨5⟩).1.timeout = defaultTimeout ∧ (Timeout 0 ⟨5⟩).2 = none ∧
    (Timeout 7 ⟨5⟩).1.timeout = 7 ∧ (Timeout 7 ⟨5⟩).2 = none ∧
    (NewPingService ⟨[]⟩).1.timeout = defaultTimeout :=
  timeout_normalisation ⟨5⟩ ⟨[]⟩ 7 (by decide)

/-- C9: a strictly negative duration is stored unchanged by the Timeout
option, neither normalised to the default nor rejected. -/
theorem timeout_negative_kept (ps : PingService) (d : Int) (hd : d < 0) :
    (Timeout d ps).1.timeout = d ∧ (Timeout d ps).2 = none := by
  have hz : d ≠ 0 := by omega
  simp [Timeout, hz]

/-- C9 witness: minus five nanoseconds is stored as given. -/
theorem timeout_negative_kept_witness :
    (Timeout (-5) ⟨0⟩).1.timeout = -5 ∧ (Timeout (-5) ⟨0⟩).2 = none :=
  timeout_negative_kept ⟨0⟩ (-5) (by decide)

/-- C10 counterexample: with options Timeout 5 then a failing option,
construction fails with the option error and the handler stays
registered, but the registered service has timeout 5, not the
60-second default the claim asserts. -/
theorem newPingServiceWithOptions_nonatomic_cex :
    (NewPingServiceWithOptions ⟨[]⟩ [Timeout 5, failOpt]).1
      = (none, some (GoError.external "boom")) ∧
    (NewPingServiceWithOptions ⟨[]⟩ [Timeout 5, failOpt]).2.2.handlers = [ID] ∧
    (NewPingServiceWithOptions ⟨[]⟩ [Timeout 5, failOpt]).2.1.timeout = 5 ∧
    ¬ (NewPingServiceWithOptions ⟨[]⟩ [Timeout 5, failOpt]).2.1.timeout = defaultTimeout := by
  refine ⟨rfl, rfl, rfl, by decide⟩

/-- C10 (amended): the handler is registered before any option is
applied, so on an option error the function returns a nil service and
that error while the handler remains registered; the registered
service carries the effect of every option applied up to the failing
one (the 60-second default only when none changed the timeout). -/
theorem newPingServiceWithOptions_registers_first (h : HostModel) (opts : List PingOption)
    (e : GoError) (he : (applyOptions ⟨defaultTimeout⟩ opts).2 = some e) :
    (NewPingServiceWithOptions h opts).2.2 = SetStreamHandler h ID ∧
    (NewPingServiceWithOptions h opts).1 = (none, some e) ∧
    (NewPingServiceWithOptions h opts).2.1 = (applyOptions ⟨defaultTimeout⟩ opts).1 := by
  simp [NewPingServiceWithOptions, NewPingService, he]

/-- C10 witness: a single failing option leaves the handler registered
and returns a nil service with the option error. -/
theorem newPingServiceWithOptions_registers_first_witness :
    (NewPingServiceWithOptions ⟨[]⟩ [failOpt]).2.2 = SetStreamHandler ⟨[]⟩ ID ∧
    (NewPingServiceWithOptions ⟨[]⟩ [failOpt]).1 = (none, some (GoError.external "boom")) ∧
    (NewPingServiceWithOptions ⟨[]⟩ [failOpt]).2.1
      = (applyOptions ⟨defaultTimeout⟩ [failOpt]).1 :=
  newPingServiceWithOptions_registers_first ⟨[]⟩ [failOpt] (GoError.external "boom") rfl

/-- C1 counterexample: with no cancellation and two consecutive failing
rounds, the session publishes the first error Result and then starts
and publishes a second round: the loop does not exit on a round error
and the output sequence is not closed, contradicting the claim that
the failing Result ends the session. -/
theorem ping_error_session_continues_cex :
    (Ping okSetup none [badRound, badRound]).published =
      [⟨0, some (GoError.external "stream reset")⟩,
       ⟨0, some (GoError.external "stream reset")⟩] ∧
    (Ping okSetup none [badRound, badRound]).roundsRun = 2 ∧
    (Ping okSetup none [badRound, badRound]).closed = false ∧
    ¬ ((Ping okSetup none [badRound, badRound]).roundsRun = 1 ∧
       (Ping okSetup none [badRound, badRound]).closed = true) := by
  refine ⟨by decide, by decide, by decide, by decide⟩

/-- C1 (amended): when an echo round returns a non-nil error and the
context is not cancelled, the Result carrying that error is published
in order, but the probing loop does not exit: it starts further rounds
and the output sequence stays open; the session ends only when the
context is cancelled. -/
theorem ping_error_published_loop_continues (env : RoundEnv) (rest : List RoundEnv)
    (e : GoError) (herr : (ping env).Error = some e) :
    (Ping okSetup none (env :: rest)).published
      = ⟨0, some e⟩ :: (Ping okSetup none rest).published ∧
    (Ping okSetup none (env :: rest)).roundsRun = rest.length + 1 ∧
    (Ping okSetup none (env :: rest)).closed = false := by
  have hz := (ping_rtt_form env).2 e herr
  simp [Ping_okSetup_eq, pingLoop_none_char, mkRes, herr, hz]

/-- C1 witness: a concrete failing round is published and the loop is
still open afterwards. -/
theorem ping_error_published_loop_continues_witness :
    (Ping okSetup none [badRound]).published
      = ⟨0, some (GoError.external "stream reset")⟩ :: (Ping okSetup none []).published ∧
    (Ping okSetup none [badRound]).roundsRun = 1 ∧
    (Ping okSetup none [badRound]).closed = false := by
  obtain ⟨h1, h2, h3⟩ :=
    ping_error_published_loop_continues badRound [] (GoError.external "stream reset") (by decide)
  exact ⟨h1, by simpa using h2, h3⟩

/-- C6: in a session whose context is observed cancelled from global
checkpoint c on, only rounds that completed and published strictly
before the cancellation appear on the output (no publish after
cancellation is observed); if cancellation is observed right after a
round completes, that outcome is discarded, its RTT is never recorded
and the loop returns; and cancellation is checked before starting each
round, so no further round starts once it is observed. -/
theorem cancellation_discards_and_stops (c j : Nat) (iters : List RoundEnv) :
    (Ping okSetup (some c) iters).published
      = (iters.take (c / 3)).map (fun e => mkRes (ping e)) ∧
    (c = 3 * j + 1 →
      (Ping okSetup (some c) iters).latencies = (iters.take j).filterMap succLat ∧
      (Ping okSetup (some c) iters).roundsRun = min (j + 1) iters.length ∧
      (j < iters.length → (Ping okSetup (some c) iters).closed = true)) ∧
    (c = 3 * j → (Ping okSetup (some c) iters).roundsRun = min j iters.length) := by
  refine ⟨?_, ?_, ?_⟩
  · simp [Ping_okSetup_eq, pingLoop_some_published]
  · intro hc
    subst hc
    obtain ⟨hl, hr, he⟩ := pingLoop_postround_cancel j iters
    exact ⟨by simp [Ping_okSetup_eq, hl], by simp [Ping_okSetup_eq, hr],
      fun hlt => by simp [Ping_okSetup_eq, he hlt]⟩
  · intro hc
    subst hc
    simp [Ping_okSetup_eq, pingLoop_precheck_cancel]

/-- C6 witness: two successful rounds with cancellation observed right
after the second round completes: only the first Result is published,
only the first RTT is recorded, both rounds ran, and the channel is
closed. -/
theorem cancellation_discards_and_stops_witness :
    (Ping okSetup (some 4) [okRound, okRound]).published = [⟨5, none⟩] ∧
    (Ping okSetup (some 4) [okRound, okRound]).latencies = [5] ∧
    (Ping okSetup (some 4) [okRound, okRound]).roundsRun = 2 ∧
    (Ping okSetup (some 4) [okRound, okRound]).closed = true := by
  obtain ⟨hpub, hpost, hpre⟩ := cancellation_discards_and_stops 4 1 [okRound, okRound]
  obtain ⟨hl, hr, he⟩ := hpost rfl
  refine ⟨?_, ?_, ?_, ?_⟩
  · rw [hpub]; decide
  · rw [hl]; decide
  · rw [hr]; decide
  · exact he (by decide)

/-- C7: in an uncancelled session the Results are published exactly in
round order, the RTTs handed to RecordLatency follow the same order,
and under a monotonic clock every successful published Result carries
a non-negative RTT (the elapsed time from just before the write to
just after the verified read). -/
theorem results_in_probe_order (iters : List RoundEnv)
    (hclock : ∀ env ∈ iters, env.tBefore ≤ env.tAfter) :
    (Ping okSetup none iters).published = iters.map (fun e => mkRes (ping e)) ∧
    (Ping okSetup none iters).latencies = iters.filterMap succLat ∧
    (∀ r ∈ (Ping okSetup none iters).published, r.Error = none → 0 ≤ r.RTT) := by
  refine ⟨by simp [Ping_okSetup_eq, pingLoop_none_char],
    by simp [Ping_okSetup_eq, pingLoop_none_char], ?_⟩
  intro r hr herr
  simp [Ping_okSetup_eq, pingLoop_none_char, List.mem_map] at hr
  obtain ⟨env, henv, hre⟩ := hr
  subst hre
  simp [mkRes] at herr ⊢
  rw [(ping_rtt_form env).1 herr]
  have := hclock env henv
  omega

/-- C7 witness: a single successful round is published in order with a
non-negative RTT. -/
theorem results_in_probe_order_witness :
    (Ping okSetup none [okRound]).published = [okRound].map (fun e => mkRes (ping e)) ∧
    (Ping okSetup none [okRound]).latencies = [okRound].filterMap succLat ∧
    (∀ r ∈ (Ping okSetup none [okRound]).published, r.Error = none → 0 ≤ r.RTT) :=
  results_in_probe_order [okRound] (by decide)
